import Mathlib

/-!  Verification development for the CompNet repository.

Shallow embeddings of the two model definitions of the repository:
the 2D U-Net of `src/ACDC/model/unet.py` and the 3D V-Net of
`src/LA/code/networks/vnet.py`, at two complementary levels.

* A structural (dataflow) semantics over an abstract tensor type `T`: the
  learned submodules (convolution blocks, dropout modules) are opaque
  functions stored in the model record, while the control flow, the flag
  handling, the mutation of `has_dropout`, and the exact call structure of
  `forward` are embedded line by line.  Stochastic tensor-library calls
  (`rand_like`, inline `Dropout2d`) are abstracted as functions supplied by a
  `TorchOps` record and indexed by a draw position, so every theorem
  quantifies over all possible random draws.

* A shape semantics: each layer becomes its PyTorch shape rule, so
  feature-pyramid structure, skip-connection well-formedness, batch
  chunking, broadcasting, and the arity of the forward dispatcher are
  computed exactly.
-/

namespace CompNet

/-- Events recorded by the instrumented forward passes: one `enc` per call
of the encoder, one `dec` per call of the decoder. -/
inductive MEvent where
  | enc : MEvent
  | dec : MEvent
deriving DecidableEq, Repr

/-- The global tensor-library operations used by the two `forward` methods,
abstracted over the tensor type `T`.  Stochastic operations take a natural
number identifying the draw, so distinct loop iterations may draw distinct
random tensors. -/
structure TorchOps (T : Type) where
  /-- `torch.cat((a, b))` on the batch dimension (`dim=0`). -/
  cat0 : T → T → T
  /-- `t.chunk(2)` on the batch dimension, in the well-formed case of
  exactly two chunks. -/
  chunk2 : T → T × T
  /-- the inline `nn.Dropout2d(p)(feat)` of the U-Net normal branch. -/
  dropout2dAt : ℚ → ℕ → T → T
  /-- `(torch.rand_like(f1) < p_keep).float()`. -/
  randMask : ℕ → T → T
  /-- elementwise `*`. -/
  mul : T → T → T
  /-- `1 - mask`. -/
  oneMinus : T → T
  /-- elementwise `+`. -/
  add : T → T → T

/-- The `features1 / features2` split of the strong branch:
`f1, f2 = feats.chunk(2)` applied to every pyramid level.  The code of the
strong branch is line-identical in `unet.py` and `vnet.py`, so the helpers
are shared by the two embeddings. -/
def strongSplit {T : Type} (g : TorchOps T) (features : List T) : List (T × T) :=
  features.map g.chunk2

/-- One iteration of the strong-branch loop over `zip(features1, features2)`:
`mask = (torch.rand_like(f1) < p_keep).float()`, `weak_f = f1 * mask`,
`strong_f = f2 * (1 - mask)`, `complete_f = weak_f + strong_f`. -/
def strongStep {T : Type} (g : TorchOps T) (i : ℕ) (f1 f2 : T) : T × T × T :=
  let mask := g.randMask i f1
  let weak_f := g.mul f1 mask
  let strong_f := g.mul f2 (g.oneMinus mask)
  (weak_f, strong_f, g.add weak_f strong_f)

/-- The strong-branch loop, with the iteration index threaded so that every
iteration uses a fresh random mask. -/
def strongLoop {T : Type} (g : TorchOps T) : ℕ → List (T × T) → List (T × T × T)
  | _, [] => []
  | i, p :: rest => strongStep g i p.1 p.2 :: strongLoop g (i + 1) rest

/-- The five decoded predictions of the strong branch:
`decoder(features1), decoder(features2), decoder(weak_features),
decoder(strong_features), decoder(complete_features)`. -/
def strongPreds {T : Type} (dec : List T → T) (g : TorchOps T)
    (features : List T) : List T :=
  let pairs := strongSplit g features
  let triples := strongLoop g 0 pairs
  [dec (pairs.map Prod.fst),
   dec (pairs.map Prod.snd),
   dec (triples.map (fun t => t.1)),
   dec (triples.map (fun t => t.2.1)),
   dec (triples.map (fun t => t.2.2))]

namespace ACDC

/-- `PertDropout` of `unet.py`: holds a weak `nn.Dropout2d(p * 0.5)` and a
strong `nn.Dropout2d(p * 1.5)`; only the probabilities are configuration
state. -/
structure PertDropout where
  p : ℚ

/-- The probabilities of the two dropout operators of `self.dropouts`,
weak first. -/
def PertDropout.dropouts (m : PertDropout) : List ℚ :=
  [m.p * (1 / 2), m.p * (3 / 2)]

/-- The probability of the weak dropout, `p * 0.5`. -/
def PertDropout.weakP (m : PertDropout) : ℚ := m.p * (1 / 2)

/-- The probability of the strong dropout, `p * 1.5`. -/
def PertDropout.strongP (m : PertDropout) : ℚ := m.p * (3 / 2)

/-- `self.len = len(self.dropouts)`. -/
def PertDropout.len (m : PertDropout) : ℕ := m.dropouts.length

/-- `PertDropout.forward`: for each dropout operator, apply it to every
feature of the input list; `applyDrop` is the action of a dropout of the
given probability on a tensor. -/
def PertDropout.forward {T : Type} (m : PertDropout) (applyDrop : ℚ → T → T)
    (x : List T) : List (List T) :=
  m.dropouts.map (fun d => x.map (fun feat => applyDrop d feat))

/-- Structural model of the `UNet` module: the encoder and decoder
submodules are opaque functions (their internal layer structure is verified
separately by the shape semantics); `pert` is the `PertDropout(0.5)`
instantiated in `__init__`. -/
structure UNet (T : Type) where
  encoder : T → List T
  decoder : List T → T
  pert : PertDropout

/-- The list comprehension of the U-Net normal branch:
`[torch.cat((feat, nn.Dropout2d(0.5)(feat))) for feat in feature]`, with the
position threaded so every feature gets a fresh dropout draw. -/
def catDropLoop {T : Type} (g : TorchOps T) : ℕ → List T → List T
  | _, [] => []
  | i, feat :: rest =>
      g.cat0 feat (g.dropout2dAt (1 / 2) i feat) :: catDropLoop g (i + 1) rest

/-- `UNet.forward` (lines 189-235 of `unet.py`).  Returns the list of
output tensors (singleton, pair, or quintuple) and the trace of
encoder/decoder calls. -/
def UNet.forward {T : Type} (m : UNet T) (g : TorchOps T) (x : T)
    (need_fp : Bool) (input_type : String) : List T × List MEvent :=
  let feature := m.encoder x
  if need_fp then
    if input_type = "normal" then
      let outs := m.decoder (catDropLoop g 0 feature)
      let p := g.chunk2 outs
      ([p.1, p.2], [MEvent.enc, MEvent.dec])
    else if input_type = "strong" then
      (strongPreds m.decoder g feature,
       [MEvent.enc, MEvent.dec, MEvent.dec, MEvent.dec, MEvent.dec, MEvent.dec])
    else
      ([m.decoder feature], [MEvent.enc, MEvent.dec])
  else
    ([m.decoder feature], [MEvent.enc, MEvent.dec])

end ACDC

namespace LA

/-- `PertDropout` of `vnet.py`: holds a weak dropout of probability
`bottom = 0.5 - p / 2` and a strong one of probability `top = 0.5 + p / 2`
(the dropout flavour selected by the `type` string does not change the
probabilities). -/
structure PertDropout where
  p : ℚ

/-- The probabilities of the two dropout operators of `self.dropouts`,
weak (`bottom`) first. -/
def PertDropout.dropouts (m : PertDropout) : List ℚ :=
  [1 / 2 - m.p / 2, 1 / 2 + m.p / 2]

/-- The probability of the weak dropout, `bottom = 0.5 - p / 2`. -/
def PertDropout.weakP (m : PertDropout) : ℚ := 1 / 2 - m.p / 2

/-- The probability of the strong dropout, `top = 0.5 + p / 2`. -/
def PertDropout.strongP (m : PertDropout) : ℚ := 1 / 2 + m.p / 2

/-- `self.len = len(self.dropouts)`. -/
def PertDropout.len (m : PertDropout) : ℕ := m.dropouts.length

/-- `PertDropout.forward`: for each dropout operator, apply it to every
feature of the input list. -/
def PertDropout.forward {T : Type} (m : PertDropout) (applyDrop : ℚ → T → T)
    (x : List T) : List (List T) :=
  m.dropouts.map (fun d => x.map (fun feat => applyDrop d feat))

/-- Structural model of the `VNet` module: the convolution blocks are
opaque functions (their layer structure is verified by the shape
semantics); `has_dropout` is the only mutable configuration field, exactly
as in the source. -/
structure VNet (T : Type) where
  has_dropout : Bool
  pert : PertDropout
  block_one : T → T
  block_one_dw : T → T
  block_two : T → T
  block_two_dw : T → T
  block_three : T → T
  block_three_dw : T → T
  block_four : T → T
  block_four_dw : T → T
  block_five : T → T
  block_five_up : T → T
  block_six : T → T
  block_six_up : T → T
  block_seven : T → T
  block_seven_up : T → T
  block_eight : T → T
  block_eight_up : T → T
  block_nine : T → T
  out_conv : T → T
  dropout : T → T

/-- `VNet.encoder` (lines 253-273 of `vnet.py`). -/
def VNet.encoder {T : Type} (m : VNet T) (input : T) : List T :=
  let x1 := m.block_one input
  let x1_dw := m.block_one_dw x1
  let x2 := m.block_two x1_dw
  let x2_dw := m.block_two_dw x2
  let x3 := m.block_three x2_dw
  let x3_dw := m.block_three_dw x3
  let x4 := m.block_four x3_dw
  let x4_dw := m.block_four_dw x4
  let x5 := m.block_five x4_dw
  let x5 := if m.has_dropout then m.dropout x5 else x5
  [x1, x2, x3, x4, x5]

/-- `VNet.decoder` (lines 275-302 of `vnet.py`); `g.add` is the tensor `+`
of the skip connections. -/
def VNet.decoder {T : Type} [Inhabited T] (m : VNet T) (g : TorchOps T)
    (features : List T) (no_drop : Bool) : T :=
  let x1 := features.getD 0 default
  let x2 := features.getD 1 default
  let x3 := features.getD 2 default
  let x4 := features.getD 3 default
  let x5 := features.getD 4 default
  let x5_up := g.add (m.block_five_up x5) x4
  let x6 := m.block_six x5_up
  let x6_up := g.add (m.block_six_up x6) x3
  let x7 := m.block_seven x6_up
  let x7_up := g.add (m.block_seven_up x7) x2
  let x8 := m.block_eight x7_up
  let x8_up := g.add (m.block_eight_up x8) x1
  let x9 := m.block_nine x8_up
  let x9 := if !no_drop && m.has_dropout then m.dropout x9 else x9
  m.out_conv x9

/-- `VNet.forward` (lines 304-352 of `vnet.py`).  Returns the list of
output tensors, the module state after the call (the source mutates
`self.has_dropout` when `turnoff_drop` is set, and restores it only on the
fall-through path), and the trace of encoder/decoder calls. -/
def VNet.forward {T : Type} [Inhabited T] (m : VNet T) (g : TorchOps T)
    (input : T) (turnoff_drop : Bool) (need_fp : Bool) (input_type : String) :
    List T × VNet T × List MEvent :=
  let saved := m.has_dropout
  let m1 := if turnoff_drop then { m with has_dropout := false } else m
  let features := m1.encoder input
  if need_fp then
    if input_type = "normal" then
      let features_perturbed := features.map m1.dropout
      let combined :=
        List.zipWith (fun feat feat_pert => g.cat0 feat feat_pert)
          features features_perturbed
      let outs := m1.decoder g combined true
      let p := g.chunk2 outs
      ([p.1, p.2], m1, [MEvent.enc, MEvent.dec])
    else if input_type = "strong" then
      (strongPreds (fun fs => m1.decoder g fs false) g features, m1,
       [MEvent.enc, MEvent.dec, MEvent.dec, MEvent.dec, MEvent.dec, MEvent.dec])
    else
      let out := m1.decoder g features false
      let m2 := if turnoff_drop then { m1 with has_dropout := saved } else m1
      ([out], m2, [MEvent.enc, MEvent.dec])
  else
    let out := m1.decoder g features false
    let m2 := if turnoff_drop then { m1 with has_dropout := saved } else m1
    ([out], m2, [MEvent.enc, MEvent.dec])

end LA

/-- `Option`-valued map over a list (the list comprehensions of the
forward methods): fails as soon as one element fails. -/
def listMapM {α β : Type} (f : α → Option β) : List α → Option (List β)
  | [] => some []
  | x :: xs => do
      let y ← f x
      let ys ← listMapM f xs
      pure (y :: ys)

/-- Broadcasting of one dimension, as in the PyTorch elementwise operators:
equal sizes stay, a size of 1 stretches to the other size, anything else is
an error. -/
def bcastDim (a b : ℕ) : Option ℕ :=
  if a = b then some a else if a = 1 then some b else if b = 1 then some a else none

namespace ACDC

/-- The shape of a 4-d tensor `(batch, channels, height, width)` of
`unet.py`. -/
structure Shape2 where
  n : ℕ
  c : ℕ
  h : ℕ
  w : ℕ
deriving DecidableEq, Repr

/-- Shape rule of `nn.Conv2d(cin, cout, kernel_size=k, padding=p)`
(stride 1): the input channel count must match and the output spatial size
`h + 2p - k + 1` must be positive. -/
def conv2dShape (cin cout k p : ℕ) (s : Shape2) : Option Shape2 :=
  if s.c = cin ∧ k ≤ s.h + 2 * p ∧ k ≤ s.w + 2 * p then
    some ⟨s.n, cout, s.h + 2 * p + 1 - k, s.w + 2 * p + 1 - k⟩
  else none

/-- Shape rule of `nn.BatchNorm2d(cf)`. -/
def batchNorm2dShape (cf : ℕ) (s : Shape2) : Option Shape2 :=
  if s.c = cf then some s else none

/-- `nn.LeakyReLU()` preserves the shape. -/
def leakyReluShape (s : Shape2) : Option Shape2 := some s

/-- `nn.Dropout` / `nn.Dropout2d` preserve the shape. -/
def dropout2Shape (s : Shape2) : Option Shape2 := some s

/-- Shape rule of `nn.MaxPool2d(2)`: floor-halves both spatial dimensions;
each must be at least 2. -/
def maxPool2Shape (s : Shape2) : Option Shape2 :=
  if 2 ≤ s.h ∧ 2 ≤ s.w then some ⟨s.n, s.c, s.h / 2, s.w / 2⟩ else none

/-- Shape rule of `nn.Upsample(scale_factor=2)`. -/
def upsample2Shape (s : Shape2) : Option Shape2 :=
  some ⟨s.n, s.c, 2 * s.h, 2 * s.w⟩

/-- `torch.cat` on `dim=0`. -/
def catBatchShape (a b : Shape2) : Option Shape2 :=
  if a.c = b.c ∧ a.h = b.h ∧ a.w = b.w then some ⟨a.n + b.n, a.c, a.h, a.w⟩ else none

/-- `torch.cat` on `dim=1`. -/
def catChannelShape (a b : Shape2) : Option Shape2 :=
  if a.n = b.n ∧ a.h = b.h ∧ a.w = b.w then some ⟨a.n, a.c + b.c, a.h, a.w⟩ else none

/-- `t.chunk(2)` on `dim=0`, unpacked into two tensors: with batch `n ≥ 2`
the chunks have batches `ceil(n / 2)` and `n - ceil(n / 2)`; with batch 1
`chunk` yields a single chunk and the unpacking `f1, f2 = ...` fails. -/
def chunk2Shape (s : Shape2) : Option (Shape2 × Shape2) :=
  if 2 ≤ s.n then
    some (⟨(s.n + 1) / 2, s.c, s.h, s.w⟩, ⟨s.n - (s.n + 1) / 2, s.c, s.h, s.w⟩)
  else none

/-- Elementwise binary operator (`*`, `+`) with PyTorch broadcasting. -/
def binOpShape (a b : Shape2) : Option Shape2 := do
  let n ← bcastDim a.n b.n
  let c ← bcastDim a.c b.c
  let h ← bcastDim a.h b.h
  let w ← bcastDim a.w b.w
  pure ⟨n, c, h, w⟩

/-- Shape behaviour of `ConvBlock` of `unet.py`: conv, batch norm, leaky
relu, dropout, conv, batch norm, leaky relu. -/
def convBlockShape (cin cout : ℕ) (s : Shape2) : Option Shape2 := do
  let s ← conv2dShape cin cout 3 1 s
  let s ← batchNorm2dShape cout s
  let s ← leakyReluShape s
  let s ← dropout2Shape s
  let s ← conv2dShape cout cout 3 1 s
  let s ← batchNorm2dShape cout s
  leakyReluShape s

/-- Shape behaviour of `DownBlock`: `nn.MaxPool2d(2)` then `ConvBlock`. -/
def downBlockShape (cin cout : ℕ) (s : Shape2) : Option Shape2 := do
  let s ← maxPool2Shape s
  convBlockShape cin cout s

/-- Shape behaviour of `UpBlock.forward(x1, x2)` with the constructed
default `bilinear=True`: 1x1 conv `cin1 → cin2` on `x1`, upsample by 2,
concatenate `[x2, x1]` on the channel dimension, then
`ConvBlock(cin2 * 2, cout)`. -/
def upBlockShape (cin1 cin2 cout : ℕ) (x1 x2 : Shape2) : Option Shape2 := do
  let y ← conv2dShape cin1 cin2 1 0 x1
  let y ← upsample2Shape y
  let z ← catChannelShape x2 y
  convBlockShape (cin2 * 2) cout z

/-- Shape behaviour of `Encoder.forward`: the initial `ConvBlock` followed
by the four `DownBlock`s, returning the five-level feature pyramid. -/
def encoderShape (inc f0 f1 f2 f3 f4 : ℕ) (x : Shape2) : Option (List Shape2) := do
  let x0 ← convBlockShape inc f0 x
  let x1 ← downBlockShape f0 f1 x0
  let x2 ← downBlockShape f1 f2 x1
  let x3 ← downBlockShape f2 f3 x2
  let x4 ← downBlockShape f3 f4 x3
  pure [x0, x1, x2, x3, x4]

/-- Shape behaviour of `Decoder.forward`: four `UpBlock` stages fusing the
pyramid levels, then the final 3x3 output convolution to `ncls` channels. -/
def decoderShape (f0 f1 f2 f3 f4 ncls : ℕ) (feature : List Shape2) : Option Shape2 := do
  let x0 ← feature[0]?
  let x1 ← feature[1]?
  let x2 ← feature[2]?
  let x3 ← feature[3]?
  let x4 ← feature[4]?
  let x ← upBlockShape f4 f3 f3 x4 x3
  let x ← upBlockShape f3 f2 f2 x x2
  let x ← upBlockShape f2 f1 f1 x x1
  let x ← upBlockShape f1 f0 f0 x x0
  conv2dShape f0 ncls 3 1 x

/-- Shape behaviour of `UNet.forward` with the channel configuration
`[16, 32, 64, 128, 256]` fixed in `UNet.__init__`; returns the list of
output shapes (singleton, pair, or quintuple). -/
def unetForwardShape (inc ncls : ℕ) (x : Shape2) (need_fp : Bool)
    (input_type : String) : Option (List Shape2) := do
  let feature ← encoderShape inc 16 32 64 128 256 x
  if need_fp then
    if input_type = "normal" then
      let combined ← listMapM (fun f => catBatchShape f f) feature
      let outs ← decoderShape 16 32 64 128 256 ncls combined
      let p ← chunk2Shape outs
      pure [p.1, p.2]
    else if input_type = "strong" then
      let pairs ← listMapM chunk2Shape feature
      let triples ← listMapM (fun q => do
        let mask := q.1
        let weak_f ← binOpShape q.1 mask
        let strong_f ← binOpShape q.2 mask
        let complete_f ← binOpShape weak_f strong_f
        pure (weak_f, strong_f, complete_f)) pairs
      let p1 ← decoderShape 16 32 64 128 256 ncls (pairs.map Prod.fst)
      let p2 ← decoderShape 16 32 64 128 256 ncls (pairs.map Prod.snd)
      let p3 ← decoderShape 16 32 64 128 256 ncls (triples.map (fun t => t.1))
      let p4 ← decoderShape 16 32 64 128 256 ncls (triples.map (fun t => t.2.1))
      let p5 ← decoderShape 16 32 64 128 256 ncls (triples.map (fun t => t.2.2))
      pure [p1, p2, p3, p4, p5]
    else
      let out ← decoderShape 16 32 64 128 256 ncls feature
      pure [out]
  else
    let out ← decoderShape 16 32 64 128 256 ncls feature
    pure [out]

end ACDC

namespace LA

/-- The shape of a 5-d tensor `(batch, channels, depth, height, width)` of
`vnet.py`. -/
structure Shape3 where
  n : ℕ
  c : ℕ
  d : ℕ
  h : ℕ
  w : ℕ
deriving DecidableEq, Repr

/-- Shape rule of `nn.Conv3d(cin, cout, k, padding=p, stride=st)`. -/
def conv3dShape (cin cout k p st : ℕ) (s : Shape3) : Option Shape3 :=
  if s.c = cin ∧ k ≤ s.d + 2 * p ∧ k ≤ s.h + 2 * p ∧ k ≤ s.w + 2 * p ∧ 0 < st then
    some ⟨s.n, cout, (s.d + 2 * p - k) / st + 1, (s.h + 2 * p - k) / st + 1,
          (s.w + 2 * p - k) / st + 1⟩
  else none

/-- Shape rule of `nn.ConvTranspose3d(cin, cout, k, padding=0, stride=st)`:
each spatial size `d` becomes `(d - 1) * st + k`. -/
def convTranspose3dShape (cin cout k st : ℕ) (s : Shape3) : Option Shape3 :=
  if s.c = cin ∧ 0 < s.d ∧ 0 < s.h ∧ 0 < s.w then
    some ⟨s.n, cout, (s.d - 1) * st + k, (s.h - 1) * st + k, (s.w - 1) * st + k⟩
  else none

/-- `torch.cat` on `dim=0`. -/
def catBatchShape (a b : Shape3) : Option Shape3 :=
  if a.c = b.c ∧ a.d = b.d ∧ a.h = b.h ∧ a.w = b.w then
    some ⟨a.n + b.n, a.c, a.d, a.h, a.w⟩
  else none

/-- `t.chunk(2)` on `dim=0`, unpacked into two tensors (cf.
`ACDC.chunk2Shape`). -/
def chunk2Shape (s : Shape3) : Option (Shape3 × Shape3) :=
  if 2 ≤ s.n then
    some (⟨(s.n + 1) / 2, s.c, s.d, s.h, s.w⟩,
          ⟨s.n - (s.n + 1) / 2, s.c, s.d, s.h, s.w⟩)
  else none

/-- Elementwise binary operator (`*`, `+`) with PyTorch broadcasting. -/
def binOpShape (a b : Shape3) : Option Shape3 := do
  let n ← bcastDim a.n b.n
  let c ← bcastDim a.c b.c
  let d ← bcastDim a.d b.d
  let h ← bcastDim a.h b.h
  let w ← bcastDim a.w b.w
  pure ⟨n, c, d, h, w⟩

/-- Shape behaviour of `ConvBlock` of `vnet.py` with `n_stages` stages:
the first 3x3x3 convolution maps `cin → cout`, the remaining ones
`cout → cout`; the normalization and relu layers preserve the shape. -/
def convBlockShape : ℕ → ℕ → ℕ → Shape3 → Option Shape3
  | 0, _, _, s => some s
  | m + 1, cin, cout, s => do
      let s ← conv3dShape cin cout 3 1 1 s
      convBlockShape m cout cout s

/-- Shape behaviour of `DownsamplingConvBlock` (stride-2 kernel-2
convolution followed by normalization and relu). -/
def downsamplingShape (cin cout : ℕ) (s : Shape3) : Option Shape3 :=
  conv3dShape cin cout 2 0 2 s

/-- Shape behaviour of `UpsamplingDeconvBlock` (stride-2 kernel-2
transposed convolution followed by normalization and relu). -/
def upsamplingShape (cin cout : ℕ) (s : Shape3) : Option Shape3 :=
  convTranspose3dShape cin cout 2 2 s

/-- Shape behaviour of `VNet.encoder`: `block_one` through `block_five`
with the four downsampling blocks; `self.dropout` (applied to `x5` when
`has_dropout` is set) preserves the shape. -/
def encoderShape (nch nf : ℕ) (s : Shape3) : Option (List Shape3) := do
  let x1 ← convBlockShape 1 nch nf s
  let x1_dw ← downsamplingShape nf (2 * nf) x1
  let x2 ← convBlockShape 2 (2 * nf) (2 * nf) x1_dw
  let x2_dw ← downsamplingShape (2 * nf) (4 * nf) x2
  let x3 ← convBlockShape 3 (4 * nf) (4 * nf) x2_dw
  let x3_dw ← downsamplingShape (4 * nf) (8 * nf) x3
  let x4 ← convBlockShape 3 (8 * nf) (8 * nf) x3_dw
  let x4_dw ← downsamplingShape (8 * nf) (16 * nf) x4
  let x5 ← convBlockShape 3 (16 * nf) (16 * nf) x4_dw
  pure [x1, x2, x3, x4, x5]

/-- Shape behaviour of `VNet.decoder`: four upsampling stages, each fused
with the corresponding encoder level by elementwise addition, then the
1x1x1 output convolution to `ncls` channels. -/
def decoderShape (nf ncls : ℕ) (features : List Shape3) : Option Shape3 := do
  let x1 ← features[0]?
  let x2 ← features[1]?
  let x3 ← features[2]?
  let x4 ← features[3]?
  let x5 ← features[4]?
  let x5_up ← upsamplingShape (16 * nf) (8 * nf) x5
  let x5_up ← binOpShape x5_up x4
  let x6 ← convBlockShape 3 (8 * nf) (8 * nf) x5_up
  let x6_up ← upsamplingShape (8 * nf) (4 * nf) x6
  let x6_up ← binOpShape x6_up x3
  let x7 ← convBlockShape 3 (4 * nf) (4 * nf) x6_up
  let x7_up ← upsamplingShape (4 * nf) (2 * nf) x7
  let x7_up ← binOpShape x7_up x2
  let x8 ← convBlockShape 2 (2 * nf) (2 * nf) x7_up
  let x8_up ← upsamplingShape (2 * nf) nf x8
  let x8_up ← binOpShape x8_up x1
  let x9 ← convBlockShape 1 nf nf x8_up
  conv3dShape nf ncls 1 0 1 x9

/-- Shape behaviour of `VNet.forward` (the dropout applications do not
change shapes, so `turnoff_drop` is shape-irrelevant); returns the list of
output shapes (singleton, pair, or quintuple). -/
def vnetForwardShape (nch ncls nf : ℕ) (x : Shape3) (need_fp : Bool)
    (input_type : String) : Option (List Shape3) := do
  let features ← encoderShape nch nf x
  if need_fp then
    if input_type = "normal" then
      let combined ← listMapM (fun f => catBatchShape f f) features
      let outs ← decoderShape nf ncls combined
      let p ← chunk2Shape outs
      pure [p.1, p.2]
    else if input_type = "strong" then
      let pairs ← listMapM chunk2Shape features
      let triples ← listMapM (fun q => do
        let mask := q.1
        let weak_f ← binOpShape q.1 mask
        let strong_f ← binOpShape q.2 mask
        let complete_f ← binOpShape weak_f strong_f
        pure (weak_f, strong_f, complete_f)) pairs
      let p1 ← decoderShape nf ncls (pairs.map Prod.fst)
      let p2 ← decoderShape nf ncls (pairs.map Prod.snd)
      let p3 ← decoderShape nf ncls (triples.map (fun t => t.1))
      let p4 ← decoderShape nf ncls (triples.map (fun t => t.2.1))
      let p5 ← decoderShape nf ncls (triples.map (fun t => t.2.2))
      pure [p1, p2, p3, p4, p5]
    else
      let out ← decoderShape nf ncls features
      pure [out]
  else
    let out ← decoderShape nf ncls features
    pure [out]

end LA

namespace ACDC

/-- `assert (len(self.ft_chns) == 5)` in `Encoder.__init__` (line 117 of
`unet.py`): construction succeeds iff the check passes. -/
def encoderInitOk (feature_chns : List ℕ) : Bool := feature_chns.length == 5

/-- `assert (len(self.ft_chns) == 5)` in `Decoder.__init__` (line 146 of
`unet.py`). -/
def decoderInitOk (feature_chns : List ℕ) : Bool := feature_chns.length == 5

end ACDC

namespace LA

/-- The normalization names accepted by the block constructors of
`vnet.py`. -/
def validNorm (normalization : String) : Bool :=
  normalization == "batchnorm" || normalization == "groupnorm" ||
  normalization == "instancenorm" || normalization == "none"

/-- `ConvBlock.__init__`: each iteration of the loop over
`range(n_stages)` reaches `assert False` iff the normalization name is
invalid; with zero stages the loop body never runs. -/
def convBlockInitOk (n_stages : ℕ) (normalization : String) : Bool :=
  (List.range n_stages).all (fun _ => validNorm normalization)

/-- `ResidualConvBlock.__init__` performs the same per-stage normalization
assertion as `ConvBlock.__init__`. -/
def residualConvBlockInitOk (n_stages : ℕ) (normalization : String) : Bool :=
  (List.range n_stages).all (fun _ => validNorm normalization)

/-- `DownsamplingConvBlock.__init__`: the `if/elif/else: assert False`
ladder fails iff the normalization name is invalid. -/
def downsamplingConvBlockInitOk (normalization : String) : Bool :=
  validNorm normalization

/-- `UpsamplingDeconvBlock.__init__`: same assertion ladder. -/
def upsamplingDeconvBlockInitOk (normalization : String) : Bool :=
  validNorm normalization

/-- `Upsampling.__init__`: same assertion ladder. -/
def upsamplingInitOk (normalization : String) : Bool :=
  validNorm normalization

end LA

/-- Trivial tensor-library instance on the unit type, for concrete
evaluations of the control flow. -/
def unitOps : TorchOps Unit where
  cat0 := fun _ _ => ()
  chunk2 := fun _ => ((), ())
  dropout2dAt := fun _ _ _ => ()
  randMask := fun _ _ => ()
  mul := fun _ _ => ()
  oneMinus := fun _ => ()
  add := fun _ _ => ()

/-- A concrete V-Net instance over `Unit` with `has_dropout = true` and
every block the identity. -/
def exVNet : LA.VNet Unit where
  has_dropout := true
  pert := ⟨1 / 2⟩
  block_one := id
  block_one_dw := id
  block_two := id
  block_two_dw := id
  block_three := id
  block_three_dw := id
  block_four := id
  block_four_dw := id
  block_five := id
  block_five_up := id
  block_six := id
  block_six_up := id
  block_seven := id
  block_seven_up := id
  block_eight := id
  block_eight_up := id
  block_nine := id
  out_conv := id
  dropout := id

/-- Concrete tensor instance where a tensor is its list of batch entries:
`chunk2` splits the batch list exactly as `torch.chunk(·, 2, dim=0)` does,
the elementwise operators act per entry, and the mask draw is the constant
all-ones mask (a possible draw). -/
def listOps : TorchOps (List ℤ) where
  cat0 := fun a b => a ++ b
  chunk2 := fun l => (l.take ((l.length + 1) / 2), l.drop ((l.length + 1) / 2))
  dropout2dAt := fun _ _ t => t
  randMask := fun _ t => t.map (fun _ => 1)
  mul := fun a b => List.zipWith (fun x y => x * y) a b
  oneMinus := fun t => t.map (fun x => 1 - x)
  add := fun a b => List.zipWith (fun x y => x + y) a b

/-- Concrete U-Net instance over list tensors: the encoder replicates its
input into the five pyramid levels and the decoder projects the first
level. -/
def exUNet : ACDC.UNet (List ℤ) where
  encoder := fun x => [x, x, x, x, x]
  decoder := fun fs => fs.headD []
  pert := ⟨1 / 2⟩

/-- The number of output tensors predicted by claim C3 for each mode-flag
combination (spec-side definition, to be compared with the embedded
forward dispatchers). -/
def specArity (need_fp : Bool) (input_type : String) : ℕ :=
  if need_fp then
    if input_type = "normal" then 2 else if input_type = "strong" then 5 else 1
  else 1

/-- Evaluation of the stride-1 2d convolution shape rule. -/
theorem aConv2d_eval (cin cout k p n c h w : ℕ) (hc : c = cin)
    (hh : k ≤ h + 2 * p) (hw : k ≤ w + 2 * p) :
    ACDC.conv2dShape cin cout k p ⟨n, c, h, w⟩ =
      some ⟨n, cout, h + 2 * p + 1 - k, w + 2 * p + 1 - k⟩ := by
  simp [ACDC.conv2dShape, hc, hh, hw]

/-- A U-Net `ConvBlock` keeps batch and spatial sizes and moves the
channels to `cout`. -/
theorem aConvBlock_eval (cin cout n c h w : ℕ) (hc : c = cin)
    (hh : 0 < h) (hw : 0 < w) :
    ACDC.convBlockShape cin cout ⟨n, c, h, w⟩ = some ⟨n, cout, h, w⟩ := by
  have e1 : ACDC.conv2dShape cin cout 3 1 ⟨n, c, h, w⟩ = some ⟨n, cout, h, w⟩ := by
    rw [aConv2d_eval cin cout 3 1 n c h w hc (by omega) (by omega)]
    simp only [Option.some.injEq, ACDC.Shape2.mk.injEq, eq_self_iff_true,
               true_and, and_true]
    all_goals omega
  have e2 : ACDC.conv2dShape cout cout 3 1 ⟨n, cout, h, w⟩ = some ⟨n, cout, h, w⟩ := by
    rw [aConv2d_eval cout cout 3 1 n cout h w rfl (by omega) (by omega)]
    simp only [Option.some.injEq, ACDC.Shape2.mk.injEq, eq_self_iff_true,
               true_and, and_true]
    all_goals omega
  simp [ACDC.convBlockShape, e1, e2, ACDC.batchNorm2dShape, ACDC.leakyReluShape,
        ACDC.dropout2Shape, Option.bind]

/-- A U-Net `DownBlock` floor-halves the spatial sizes. -/
theorem aDownBlock_eval (cin cout n c h w : ℕ) (hc : c = cin)
    (hh : 2 ≤ h) (hw : 2 ≤ w) :
    ACDC.downBlockShape cin cout ⟨n, c, h, w⟩ = some ⟨n, cout, h / 2, w / 2⟩ := by
  have e0 : ACDC.maxPool2Shape ⟨n, c, h, w⟩ = some ⟨n, c, h / 2, w / 2⟩ := by
    simp [ACDC.maxPool2Shape, hh, hw]
  simp [ACDC.downBlockShape, e0, Option.bind,
        aConvBlock_eval cin cout n c (h / 2) (w / 2) hc (by omega) (by omega)]

/-- A U-Net `UpBlock` doubles the spatial sizes of `x1`, fuses with `x2`
by channel concatenation, and moves the channels to `cout`. -/
theorem aUpBlock_eval (cin1 cin2 cout n h w h2 w2 : ℕ) (hh : 0 < h) (hw : 0 < w)
    (hh2 : h2 = 2 * h) (hw2 : w2 = 2 * w) :
    ACDC.upBlockShape cin1 cin2 cout ⟨n, cin1, h, w⟩ ⟨n, cin2, h2, w2⟩ =
      some ⟨n, cout, 2 * h, 2 * w⟩ := by
  have e1 : ACDC.conv2dShape cin1 cin2 1 0 ⟨n, cin1, h, w⟩ = some ⟨n, cin2, h, w⟩ := by
    rw [aConv2d_eval cin1 cin2 1 0 n cin1 h w rfl (by omega) (by omega)]
    simp only [Option.some.injEq, ACDC.Shape2.mk.injEq, eq_self_iff_true,
               true_and, and_true]
    all_goals omega
  have e2 : ACDC.catChannelShape ⟨n, cin2, h2, w2⟩ ⟨n, cin2, 2 * h, 2 * w⟩ =
      some ⟨n, cin2 + cin2, 2 * h, 2 * w⟩ := by
    simp [ACDC.catChannelShape, hh2, hw2]
  have e3 : ACDC.convBlockShape (cin2 * 2) cout ⟨n, cin2 + cin2, 2 * h, 2 * w⟩ =
      some ⟨n, cout, 2 * h, 2 * w⟩ :=
    aConvBlock_eval (cin2 * 2) cout n (cin2 + cin2) (2 * h) (2 * w) (by omega)
      (by omega) (by omega)
  simp [ACDC.upBlockShape, e1, ACDC.upsample2Shape, e2, e3, Option.bind]

/-- The U-Net encoder on a valid input produces the five-level pyramid
with the configured channels and exactly halved spatial sizes. -/
theorem aEncoder_eval (inc f0 f1 f2 f3 f4 n a b : ℕ) (ha : 0 < a) (hb : 0 < b) :
    ACDC.encoderShape inc f0 f1 f2 f3 f4 ⟨n, inc, 16 * a, 16 * b⟩ =
      some [⟨n, f0, 16 * a, 16 * b⟩, ⟨n, f1, 8 * a, 8 * b⟩, ⟨n, f2, 4 * a, 4 * b⟩,
            ⟨n, f3, 2 * a, 2 * b⟩, ⟨n, f4, a, b⟩] := by
  have e0 := aConvBlock_eval inc f0 n inc (16 * a) (16 * b) rfl (by omega) (by omega)
  have e1 : ACDC.downBlockShape f0 f1 ⟨n, f0, 16 * a, 16 * b⟩ =
      some ⟨n, f1, 8 * a, 8 * b⟩ := by
    rw [aDownBlock_eval f0 f1 n f0 (16 * a) (16 * b) rfl (by omega) (by omega)]
    simp only [Option.some.injEq, ACDC.Shape2.mk.injEq, eq_self_iff_true,
               true_and, and_true]
    all_goals omega
  have e2 : ACDC.downBlockShape f1 f2 ⟨n, f1, 8 * a, 8 * b⟩ =
      some ⟨n, f2, 4 * a, 4 * b⟩ := by
    rw [aDownBlock_eval f1 f2 n f1 (8 * a) (8 * b) rfl (by omega) (by omega)]
    simp only [Option.some.injEq, ACDC.Shape2.mk.injEq, eq_self_iff_true,
               true_and, and_true]
    all_goals omega
  have e3 : ACDC.downBlockShape f2 f3 ⟨n, f2, 4 * a, 4 * b⟩ =
      some ⟨n, f3, 2 * a, 2 * b⟩ := by
    rw [aDownBlock_eval f2 f3 n f2 (4 * a) (4 * b) rfl (by omega) (by omega)]
    simp only [Option.some.injEq, ACDC.Shape2.mk.injEq, eq_self_iff_true,
               true_and, and_true]
    all_goals omega
  have e4 : ACDC.downBlockShape f3 f4 ⟨n, f3, 2 * a, 2 * b⟩ = some ⟨n, f4, a, b⟩ := by
    rw [aDownBlock_eval f3 f4 n f3 (2 * a) (2 * b) rfl (by omega) (by omega)]
    simp only [Option.some.injEq, ACDC.Shape2.mk.injEq, eq_self_iff_true,
               true_and, and_true]
    all_goals omega
  simp [ACDC.encoderShape, e0, e1, e2, e3, e4, Option.bind]

/-- The U-Net decoder on the encoder pyramid returns one `ncls`-channel
map at the original spatial size. -/
theorem aDecoder_eval (f0 f1 f2 f3 f4 ncls n a b : ℕ) (ha : 0 < a) (hb : 0 < b) :
    ACDC.decoderShape f0 f1 f2 f3 f4 ncls
      [⟨n, f0, 16 * a, 16 * b⟩, ⟨n, f1, 8 * a, 8 * b⟩, ⟨n, f2, 4 * a, 4 * b⟩,
       ⟨n, f3, 2 * a, 2 * b⟩, ⟨n, f4, a, b⟩] = some ⟨n, ncls, 16 * a, 16 * b⟩ := by
  have u1 : ACDC.upBlockShape f4 f3 f3 ⟨n, f4, a, b⟩ ⟨n, f3, 2 * a, 2 * b⟩ =
      some ⟨n, f3, 2 * a, 2 * b⟩ :=
    aUpBlock_eval f4 f3 f3 n a b (2 * a) (2 * b) ha hb rfl rfl
  have u2 : ACDC.upBlockShape f3 f2 f2 ⟨n, f3, 2 * a, 2 * b⟩ ⟨n, f2, 4 * a, 4 * b⟩ =
      some ⟨n, f2, 4 * a, 4 * b⟩ := by
    rw [aUpBlock_eval f3 f2 f2 n (2 * a) (2 * b) (4 * a) (4 * b) (by omega) (by omega)
        (by omega) (by omega)]
    simp only [Option.some.injEq, ACDC.Shape2.mk.injEq, eq_self_iff_true,
               true_and, and_true]
    all_goals omega
  have u3 : ACDC.upBlockShape f2 f1 f1 ⟨n, f2, 4 * a, 4 * b⟩ ⟨n, f1, 8 * a, 8 * b⟩ =
      some ⟨n, f1, 8 * a, 8 * b⟩ := by
    rw [aUpBlock_eval f2 f1 f1 n (4 * a) (4 * b) (8 * a) (8 * b) (by omega) (by omega)
        (by omega) (by omega)]
    simp only [Option.some.injEq, ACDC.Shape2.mk.injEq, eq_self_iff_true,
               true_and, and_true]
    all_goals omega
  have u4 : ACDC.upBlockShape f1 f0 f0 ⟨n, f1, 8 * a, 8 * b⟩ ⟨n, f0, 16 * a, 16 * b⟩ =
      some ⟨n, f0, 16 * a, 16 * b⟩ := by
    rw [aUpBlock_eval f1 f0 f0 n (8 * a) (8 * b) (16 * a) (16 * b) (by omega) (by omega)
        (by omega) (by omega)]
    simp only [Option.some.injEq, ACDC.Shape2.mk.injEq, eq_self_iff_true,
               true_and, and_true]
    all_goals omega
  have oc : ACDC.conv2dShape f0 ncls 3 1 ⟨n, f0, 16 * a, 16 * b⟩ =
      some ⟨n, ncls, 16 * a, 16 * b⟩ := by
    rw [aConv2d_eval f0 ncls 3 1 n f0 (16 * a) (16 * b) rfl (by omega) (by omega)]
    simp only [Option.some.injEq, ACDC.Shape2.mk.injEq, eq_self_iff_true,
               true_and, and_true]
    all_goals omega
  simp [ACDC.decoderShape, u1, u2, u3, u4, oc, Option.bind]

/-- Evaluation of the 3d convolution shape rule. -/
theorem vConv3d_eval (cin cout k p st n c d h w : ℕ) (hc : c = cin)
    (hd : k ≤ d + 2 * p) (hh : k ≤ h + 2 * p) (hw : k ≤ w + 2 * p) (hst : 0 < st) :
    LA.conv3dShape cin cout k p st ⟨n, c, d, h, w⟩ =
      some ⟨n, cout, (d + 2 * p - k) / st + 1, (h + 2 * p - k) / st + 1,
            (w + 2 * p - k) / st + 1⟩ := by
  simp [LA.conv3dShape, hc, hd, hh, hw, hst]

/-- A V-Net `ConvBlock` stage pipeline with equal in/out channels is
shape-neutral. -/
theorem vConvBlock_same (m cc n d h w : ℕ) (hd : 0 < d) (hh : 0 < h) (hw : 0 < w) :
    LA.convBlockShape m cc cc ⟨n, cc, d, h, w⟩ = some ⟨n, cc, d, h, w⟩ := by
  induction m with
  | zero => rfl
  | succ k ih =>
      have e1 : LA.conv3dShape cc cc 3 1 1 ⟨n, cc, d, h, w⟩ = some ⟨n, cc, d, h, w⟩ := by
        rw [vConv3d_eval cc cc 3 1 1 n cc d h w rfl (by omega) (by omega) (by omega)
            (by omega)]
        simp only [Option.some.injEq, LA.Shape3.mk.injEq, eq_self_iff_true,
                   true_and, and_true]
        all_goals omega
      simp [LA.convBlockShape, e1, ih, Option.bind]

/-- A V-Net `ConvBlock` with at least one stage keeps batch and spatial
sizes and moves the channels to `cout`. -/
theorem vConvBlock_eval (m cin cout n c d h w : ℕ) (hc : c = cin)
    (hd : 0 < d) (hh : 0 < h) (hw : 0 < w) :
    LA.convBlockShape (m + 1) cin cout ⟨n, c, d, h, w⟩ = some ⟨n, cout, d, h, w⟩ := by
  have e1 : LA.conv3dShape cin cout 3 1 1 ⟨n, c, d, h, w⟩ = some ⟨n, cout, d, h, w⟩ := by
    rw [vConv3d_eval cin cout 3 1 1 n c d h w hc (by omega) (by omega) (by omega)
        (by omega)]
    simp only [Option.some.injEq, LA.Shape3.mk.injEq, eq_self_iff_true,
               true_and, and_true]
    all_goals omega
  simp [LA.convBlockShape, e1, vConvBlock_same m cout n d h w hd hh hw, Option.bind]

/-- A V-Net `DownsamplingConvBlock` floor-halves the three spatial
sizes. -/
theorem vDown_eval (cin cout n c d h w : ℕ) (hc : c = cin)
    (hd : 2 ≤ d) (hh : 2 ≤ h) (hw : 2 ≤ w) :
    LA.downsamplingShape cin cout ⟨n, c, d, h, w⟩ =
      some ⟨n, cout, d / 2, h / 2, w / 2⟩ := by
  rw [LA.downsamplingShape,
      vConv3d_eval cin cout 2 0 2 n c d h w hc (by omega) (by omega) (by omega)
        (by omega)]
  simp only [Option.some.injEq, LA.Shape3.mk.injEq, eq_self_iff_true,
             true_and, and_true]
  all_goals omega

/-- A V-Net `UpsamplingDeconvBlock` doubles the three spatial sizes. -/
theorem vUp_eval (cin cout n c d h w : ℕ) (hc : c = cin)
    (hd : 0 < d) (hh : 0 < h) (hw : 0 < w) :
    LA.upsamplingShape cin cout ⟨n, c, d, h, w⟩ =
      some ⟨n, cout, 2 * d, 2 * h, 2 * w⟩ := by
  rw [LA.upsamplingShape]
  simp only [LA.convTranspose3dShape, hc, hd, hh, hw, and_self, if_true,
             eq_self_iff_true, true_and, and_true, if_pos]
  simp only [Option.some.injEq, LA.Shape3.mk.injEq, eq_self_iff_true,
             true_and, and_true]
  all_goals omega

/-- Elementwise operators on equal shapes succeed and keep the shape. -/
theorem vBinOp_self (s : LA.Shape3) : LA.binOpShape s s = some s := by
  simp [LA.binOpShape, bcastDim, Option.bind]

/-- 2d version of `vBinOp_self`. -/
theorem aBinOp_self (s : ACDC.Shape2) : ACDC.binOpShape s s = some s := by
  simp [ACDC.binOpShape, bcastDim, Option.bind]

/-- The V-Net encoder on a valid input produces the five-level pyramid
with channels `nf, 2nf, 4nf, 8nf, 16nf` and exactly halved spatial
sizes. -/
theorem vEncoder_eval (nch nf n a b c : ℕ) (ha : 0 < a) (hb : 0 < b) (hc : 0 < c) :
    LA.encoderShape nch nf ⟨n, nch, 16 * a, 16 * b, 16 * c⟩ =
      some [⟨n, nf, 16 * a, 16 * b, 16 * c⟩, ⟨n, 2 * nf, 8 * a, 8 * b, 8 * c⟩,
            ⟨n, 4 * nf, 4 * a, 4 * b, 4 * c⟩, ⟨n, 8 * nf, 2 * a, 2 * b, 2 * c⟩,
            ⟨n, 16 * nf, a, b, c⟩] := by
  have e1 := vConvBlock_eval 0 nch nf n nch (16 * a) (16 * b) (16 * c) rfl
    (by omega) (by omega) (by omega)
  have d1 : LA.downsamplingShape nf (2 * nf) ⟨n, nf, 16 * a, 16 * b, 16 * c⟩ =
      some ⟨n, 2 * nf, 8 * a, 8 * b, 8 * c⟩ := by
    rw [vDown_eval nf (2 * nf) n nf (16 * a) (16 * b) (16 * c) rfl (by omega)
        (by omega) (by omega)]
    simp only [Option.some.injEq, LA.Shape3.mk.injEq, eq_self_iff_true,
               true_and, and_true]
    all_goals omega
  have e2 := vConvBlock_eval 1 (2 * nf) (2 * nf) n (2 * nf) (8 * a) (8 * b) (8 * c)
    rfl (by omega) (by omega) (by omega)
  have d2 : LA.downsamplingShape (2 * nf) (4 * nf) ⟨n, 2 * nf, 8 * a, 8 * b, 8 * c⟩ =
      some ⟨n, 4 * nf, 4 * a, 4 * b, 4 * c⟩ := by
    rw [vDown_eval (2 * nf) (4 * nf) n (2 * nf) (8 * a) (8 * b) (8 * c) rfl (by omega)
        (by omega) (by omega)]
    simp only [Option.some.injEq, LA.Shape3.mk.injEq, eq_self_iff_true,
               true_and, and_true]
    all_goals omega
  have e3 := vConvBlock_eval 2 (4 * nf) (4 * nf) n (4 * nf) (4 * a) (4 * b) (4 * c)
    rfl (by omega) (by omega) (by omega)
  have d3 : LA.downsamplingShape (4 * nf) (8 * nf) ⟨n, 4 * nf, 4 * a, 4 * b, 4 * c⟩ =
      some ⟨n, 8 * nf, 2 * a, 2 * b, 2 * c⟩ := by
    rw [vDown_eval (4 * nf) (8 * nf) n (4 * nf) (4 * a) (4 * b) (4 * c) rfl (by omega)
        (by omega) (by omega)]
    simp only [Option.some.injEq, LA.Shape3.mk.injEq, eq_self_iff_true,
               true_and, and_true]
    all_goals omega
  have e4 := vConvBlock_eval 2 (8 * nf) (8 * nf) n (8 * nf) (2 * a) (2 * b) (2 * c)
    rfl (by omega) (by omega) (by omega)
  have d4 : LA.downsamplingShape (8 * nf) (16 * nf) ⟨n, 8 * nf, 2 * a, 2 * b, 2 * c⟩ =
      some ⟨n, 16 * nf, a, b, c⟩ := by
    rw [vDown_eval (8 * nf) (16 * nf) n (8 * nf) (2 * a) (2 * b) (2 * c) rfl (by omega)
        (by omega) (by omega)]
    simp only [Option.some.injEq, LA.Shape3.mk.injEq, eq_self_iff_true,
               true_and, and_true]
    all_goals omega
  have e5 := vConvBlock_eval 2 (16 * nf) (16 * nf) n (16 * nf) a b c rfl ha hb hc
  simp [LA.encoderShape, e1, d1, e2, d2, e3, d3, e4, d4, e5, Option.bind]

/-- The V-Net decoder on the encoder pyramid returns one `ncls`-channel
map at the original spatial size. -/
theorem vDecoder_eval (nf ncls n a b c : ℕ) (ha : 0 < a) (hb : 0 < b) (hc : 0 < c) :
    LA.decoderShape nf ncls
      [⟨n, nf, 16 * a, 16 * b, 16 * c⟩, ⟨n, 2 * nf, 8 * a, 8 * b, 8 * c⟩,
       ⟨n, 4 * nf, 4 * a, 4 * b, 4 * c⟩, ⟨n, 8 * nf, 2 * a, 2 * b, 2 * c⟩,
       ⟨n, 16 * nf, a, b, c⟩] = some ⟨n, ncls, 16 * a, 16 * b, 16 * c⟩ := by
  have u1 : LA.upsamplingShape (16 * nf) (8 * nf) ⟨n, 16 * nf, a, b, c⟩ =
      some ⟨n, 8 * nf, 2 * a, 2 * b, 2 * c⟩ :=
    vUp_eval (16 * nf) (8 * nf) n (16 * nf) a b c rfl ha hb hc
  have s1 := vBinOp_self ⟨n, 8 * nf, 2 * a, 2 * b, 2 * c⟩
  have e1 := vConvBlock_eval 2 (8 * nf) (8 * nf) n (8 * nf) (2 * a) (2 * b) (2 * c)
    rfl (by omega) (by omega) (by omega)
  have u2 : LA.upsamplingShape (8 * nf) (4 * nf) ⟨n, 8 * nf, 2 * a, 2 * b, 2 * c⟩ =
      some ⟨n, 4 * nf, 4 * a, 4 * b, 4 * c⟩ := by
    rw [vUp_eval (8 * nf) (4 * nf) n (8 * nf) (2 * a) (2 * b) (2 * c) rfl (by omega)
        (by omega) (by omega)]
    simp only [Option.some.injEq, LA.Shape3.mk.injEq, eq_self_iff_true,
               true_and, and_true]
    all_goals omega
  have s2 := vBinOp_self ⟨n, 4 * nf, 4 * a, 4 * b, 4 * c⟩
  have e2 := vConvBlock_eval 2 (4 * nf) (4 * nf) n (4 * nf) (4 * a) (4 * b) (4 * c)
    rfl (by omega) (by omega) (by omega)
  have u3 : LA.upsamplingShape (4 * nf) (2 * nf) ⟨n, 4 * nf, 4 * a, 4 * b, 4 * c⟩ =
      some ⟨n, 2 * nf, 8 * a, 8 * b, 8 * c⟩ := by
    rw [vUp_eval (4 * nf) (2 * nf) n (4 * nf) (4 * a) (4 * b) (4 * c) rfl (by omega)
        (by omega) (by omega)]
    simp only [Option.some.injEq, LA.Shape3.mk.injEq, eq_self_iff_true,
               true_and, and_true]
    all_goals omega
  have s3 := vBinOp_self ⟨n, 2 * nf, 8 * a, 8 * b, 8 * c⟩
  have e3 := vConvBlock_eval 1 (2 * nf) (2 * nf) n (2 * nf) (8 * a) (8 * b) (8 * c)
    rfl (by omega) (by omega) (by omega)
  have u4 : LA.upsamplingShape (2 * nf) nf ⟨n, 2 * nf, 8 * a, 8 * b, 8 * c⟩ =
      some ⟨n, nf, 16 * a, 16 * b, 16 * c⟩ := by
    rw [vUp_eval (2 * nf) nf n (2 * nf) (8 * a) (8 * b) (8 * c) rfl (by omega)
        (by omega) (by omega)]
    simp only [Option.some.injEq, LA.Shape3.mk.injEq, eq_self_iff_true,
               true_and, and_true]
    all_goals omega
  have s4 := vBinOp_self ⟨n, nf, 16 * a, 16 * b, 16 * c⟩
  have e4 := vConvBlock_eval 0 nf nf n nf (16 * a) (16 * b) (16 * c) rfl
    (by omega) (by omega) (by omega)
  have oc : LA.conv3dShape nf ncls 1 0 1 ⟨n, nf, 16 * a, 16 * b, 16 * c⟩ =
      some ⟨n, ncls, 16 * a, 16 * b, 16 * c⟩ := by
    rw [vConv3d_eval nf ncls 1 0 1 n nf (16 * a) (16 * b) (16 * c) rfl (by omega)
        (by omega) (by omega) (by omega)]
    simp only [Option.some.injEq, LA.Shape3.mk.injEq, eq_self_iff_true,
               true_and, and_true]
    all_goals omega
  simp [LA.decoderShape, u1, s1, e1, u2, s2, e2, u3, s3, e3, u4, s4, e4, oc,
        Option.bind]

/-- Destructor for a successful `Option` bind. -/
theorem bind_some_elim {α β : Type} {o : Option α} {f : α → Option β} {b : β}
    (h : o >>= f = some b) : ∃ a, o = some a ∧ f a = some b := by
  cases o with
  | none => simp at h
  | some a => exact ⟨a, rfl, h⟩

/-- C7: on every valid input (channel count matching the configuration,
every spatial size a positive multiple of 16), each encoder returns a
pyramid of exactly five feature maps — the initial convolution block
followed by the four downsampling stages — in which each successive map
has exactly half the spatial resolution per dimension of the previous one
and the channel counts follow the configured per-stage list
(`f0..f4` for the U-Net `Encoder`, `nf, 2nf, 4nf, 8nf, 16nf` for the
V-Net). -/
theorem C7_encoder_pyramid :
    (∀ inc f0 f1 f2 f3 f4 n a b : ℕ,
        ACDC.encoderShape inc f0 f1 f2 f3 f4
            ⟨n, inc, 16 * (a + 1), 16 * (b + 1)⟩ =
          some [⟨n, f0, 16 * (a + 1), 16 * (b + 1)⟩,
                ⟨n, f1, 8 * (a + 1), 8 * (b + 1)⟩,
                ⟨n, f2, 4 * (a + 1), 4 * (b + 1)⟩,
                ⟨n, f3, 2 * (a + 1), 2 * (b + 1)⟩,
                ⟨n, f4, a + 1, b + 1⟩]) ∧
    (∀ nch nf n a b c : ℕ,
        LA.encoderShape nch nf ⟨n, nch, 16 * (a + 1), 16 * (b + 1), 16 * (c + 1)⟩ =
          some [⟨n, nf, 16 * (a + 1), 16 * (b + 1), 16 * (c + 1)⟩,
                ⟨n, 2 * nf, 8 * (a + 1), 8 * (b + 1), 8 * (c + 1)⟩,
                ⟨n, 4 * nf, 4 * (a + 1), 4 * (b + 1), 4 * (c + 1)⟩,
                ⟨n, 8 * nf, 2 * (a + 1), 2 * (b + 1), 2 * (c + 1)⟩,
                ⟨n, 16 * nf, a + 1, b + 1, c + 1⟩]) :=
  ⟨fun inc f0 f1 f2 f3 f4 n a b =>
    aEncoder_eval inc f0 f1 f2 f3 f4 n (a + 1) (b + 1) (Nat.succ_pos a)
      (Nat.succ_pos b),
   fun nch nf n a b c =>
    vEncoder_eval nch nf n (a + 1) (b + 1) (c + 1) (Nat.succ_pos a)
      (Nat.succ_pos b) (Nat.succ_pos c)⟩

/-- C8: for every pyramid produced by the matching encoder on a valid
input, the decoder (four upsampling stages fused with the encoder levels
by channel concatenation in the U-Net and by elementwise addition in the
V-Net) returns a single map whose channel count is the configured class
number and whose spatial sizes equal those of the original encoder
input. -/
theorem C8_decoder_inverts_pyramid :
    (∀ (inc f0 f1 f2 f3 f4 ncls n a b : ℕ) (feats : List ACDC.Shape2),
        0 < a → 0 < b →
        ACDC.encoderShape inc f0 f1 f2 f3 f4 ⟨n, inc, 16 * a, 16 * b⟩ = some feats →
        ACDC.decoderShape f0 f1 f2 f3 f4 ncls feats =
          some ⟨n, ncls, 16 * a, 16 * b⟩) ∧
    (∀ (nch nf ncls n a b c : ℕ) (feats : List LA.Shape3),
        0 < a → 0 < b → 0 < c →
        LA.encoderShape nch nf ⟨n, nch, 16 * a, 16 * b, 16 * c⟩ = some feats →
        LA.decoderShape nf ncls feats = some ⟨n, ncls, 16 * a, 16 * b, 16 * c⟩) := by
  constructor
  · intro inc f0 f1 f2 f3 f4 ncls n a b feats ha hb henc
    rw [aEncoder_eval inc f0 f1 f2 f3 f4 n a b ha hb] at henc
    cases henc
    exact aDecoder_eval f0 f1 f2 f3 f4 ncls n a b ha hb
  · intro nch nf ncls n a b c feats ha hb hc henc
    rw [vEncoder_eval nch nf n a b c ha hb hc] at henc
    cases henc
    exact vDecoder_eval nf ncls n a b c ha hb hc

/-- C8 (witness): the decoder property instantiated on the concrete
pyramid of a `(2, 1, 16, 16)` input (U-Net) and a `(2, 1, 16, 16, 16)`
input (V-Net). -/
theorem C8_witness :
    ACDC.decoderShape 16 32 64 128 256 4
        [⟨2, 16, 16 * 1, 16 * 1⟩, ⟨2, 32, 8 * 1, 8 * 1⟩, ⟨2, 64, 4 * 1, 4 * 1⟩,
         ⟨2, 128, 2 * 1, 2 * 1⟩, ⟨2, 256, 1, 1⟩] = some ⟨2, 4, 16 * 1, 16 * 1⟩ ∧
    LA.decoderShape 16 2
        [⟨2, 16, 16 * 1, 16 * 1, 16 * 1⟩, ⟨2, 2 * 16, 8 * 1, 8 * 1, 8 * 1⟩,
         ⟨2, 4 * 16, 4 * 1, 4 * 1, 4 * 1⟩, ⟨2, 8 * 16, 2 * 1, 2 * 1, 2 * 1⟩,
         ⟨2, 16 * 16, 1, 1, 1⟩] = some ⟨2, 2, 16 * 1, 16 * 1, 16 * 1⟩ :=
  ⟨C8_decoder_inverts_pyramid.1 1 16 32 64 128 256 4 2 1 1 _ (by decide) (by decide)
      (by decide),
   C8_decoder_inverts_pyramid.2 1 16 2 2 1 1 1 _ (by decide) (by decide) (by decide)
      (by decide)⟩

/-- C3: the forward dispatcher arity — whenever a forward call returns,
it returns one output tensor for `need_fp=False`, two for `need_fp=True`
with `input_type="normal"`, five for `need_fp=True` with
`input_type="strong"`, and one for `need_fp=True` with any other
`input_type`, in both models. -/
theorem C3_dispatch_arity :
    (∀ (inc ncls : ℕ) (x : ACDC.Shape2) (fp : Bool) (t : String)
        (r : List ACDC.Shape2),
        ACDC.unetForwardShape inc ncls x fp t = some r →
        r.length = specArity fp t) ∧
    (∀ (nch ncls nf : ℕ) (x : LA.Shape3) (fp : Bool) (t : String)
        (r : List LA.Shape3),
        LA.vnetForwardShape nch ncls nf x fp t = some r →
        r.length = specArity fp t) := by
  constructor
  · intro inc ncls x fp t r h
    rw [ACDC.unetForwardShape] at h
    obtain ⟨feature, hf, h⟩ := bind_some_elim h
    cases fp with
    | false =>
        rw [if_neg (by simp)] at h
        obtain ⟨out, ho, h⟩ := bind_some_elim h
        cases h
        simp [specArity]
    | true =>
        rw [if_pos rfl] at h
        by_cases h1 : t = "normal"
        · rw [if_pos h1] at h
          obtain ⟨combined, hcm, h⟩ := bind_some_elim h
          obtain ⟨outs, ho, h⟩ := bind_some_elim h
          obtain ⟨p, hp, h⟩ := bind_some_elim h
          cases h
          simp [specArity, h1]
        · rw [if_neg h1] at h
          by_cases h2 : t = "strong"
          · rw [if_pos h2] at h
            obtain ⟨pairs, hpr, h⟩ := bind_some_elim h
            obtain ⟨triples, htr, h⟩ := bind_some_elim h
            obtain ⟨p1, hp1, h⟩ := bind_some_elim h
            obtain ⟨p2, hp2, h⟩ := bind_some_elim h
            obtain ⟨p3, hp3, h⟩ := bind_some_elim h
            obtain ⟨p4, hp4, h⟩ := bind_some_elim h
            obtain ⟨p5, hp5, h⟩ := bind_some_elim h
            cases h
            simp [specArity, h1, h2]
          · rw [if_neg h2] at h
            obtain ⟨out, ho, h⟩ := bind_some_elim h
            cases h
            simp [specArity, h1, h2]
  · intro nch ncls nf x fp t r h
    rw [LA.vnetForwardShape] at h
    obtain ⟨features, hf, h⟩ := bind_some_elim h
    cases fp with
    | false =>
        rw [if_neg (by simp)] at h
        obtain ⟨out, ho, h⟩ := bind_some_elim h
        cases h
        simp [specArity]
    | true =>
        rw [if_pos rfl] at h
        by_cases h1 : t = "normal"
        · rw [if_pos h1] at h
          obtain ⟨combined, hcm, h⟩ := bind_some_elim h
          obtain ⟨outs, ho, h⟩ := bind_some_elim h
          obtain ⟨p, hp, h⟩ := bind_some_elim h
          cases h
          simp [specArity, h1]
        · rw [if_neg h1] at h
          by_cases h2 : t = "strong"
          · rw [if_pos h2] at h
            obtain ⟨pairs, hpr, h⟩ := bind_some_elim h
            obtain ⟨triples, htr, h⟩ := bind_some_elim h
            obtain ⟨p1, hp1, h⟩ := bind_some_elim h
            obtain ⟨p2, hp2, h⟩ := bind_some_elim h
            obtain ⟨p3, hp3, h⟩ := bind_some_elim h
            obtain ⟨p4, hp4, h⟩ := bind_some_elim h
            obtain ⟨p5, hp5, h⟩ := bind_some_elim h
            cases h
            simp [specArity, h1, h2]
          · rw [if_neg h2] at h
            obtain ⟨out, ho, h⟩ := bind_some_elim h
            cases h
            simp [specArity, h1, h2]

/-- C3 (witness): the dispatcher arity at concrete successful calls of
all four mode combinations of the U-Net and the strong mode of the
V-Net. -/
theorem C3_witness :
    ([⟨2, 4, 16, 16⟩] : List ACDC.Shape2).length = specArity false "normal" ∧
    ([⟨2, 4, 16, 16⟩, ⟨2, 4, 16, 16⟩] : List ACDC.Shape2).length =
      specArity true "normal" ∧
    ([⟨1, 4, 16, 16⟩, ⟨1, 4, 16, 16⟩, ⟨1, 4, 16, 16⟩, ⟨1, 4, 16, 16⟩,
      ⟨1, 4, 16, 16⟩] : List ACDC.Shape2).length = specArity true "strong" ∧
    ([⟨2, 4, 16, 16⟩] : List ACDC.Shape2).length = specArity true "weird" ∧
    ([⟨1, 2, 16, 16, 16⟩, ⟨1, 2, 16, 16, 16⟩, ⟨1, 2, 16, 16, 16⟩,
      ⟨1, 2, 16, 16, 16⟩, ⟨1, 2, 16, 16, 16⟩] : List LA.Shape3).length =
      specArity true "strong" :=
  ⟨C3_dispatch_arity.1 1 4 ⟨2, 1, 16, 16⟩ false "normal" _ (by decide),
   C3_dispatch_arity.1 1 4 ⟨2, 1, 16, 16⟩ true "normal" _ (by decide),
   C3_dispatch_arity.1 1 4 ⟨2, 1, 16, 16⟩ true "strong" _ (by decide),
   C3_dispatch_arity.1 1 4 ⟨2, 1, 16, 16⟩ true "weird" _ (by decide),
   C3_dispatch_arity.2 1 2 16 ⟨2, 1, 16, 16, 16⟩ true "strong" _ (by decide)⟩

/-- Chunking an even batch `2m ≥ 2` yields two halves of batch `m`. -/
theorem aChunk_even (m ch sa sb : ℕ) (hm : 0 < m) :
    ACDC.chunk2Shape ⟨2 * m, ch, sa, sb⟩ =
      some (⟨m, ch, sa, sb⟩, ⟨m, ch, sa, sb⟩) := by
  rw [ACDC.chunk2Shape]
  rw [if_pos (show 2 ≤ (ACDC.Shape2.mk (2 * m) ch sa sb).n by simp; omega)]
  simp only [Option.some.injEq, Prod.mk.injEq, ACDC.Shape2.mk.injEq,
             eq_self_iff_true, true_and, and_true]
  all_goals omega

/-- Chunking an odd batch `2m + 1 ≥ 3` yields halves of batches `m + 1`
and `m`. -/
theorem aChunk_odd (m ch sa sb : ℕ) (hm : 0 < m) :
    ACDC.chunk2Shape ⟨2 * m + 1, ch, sa, sb⟩ =
      some (⟨m + 1, ch, sa, sb⟩, ⟨m, ch, sa, sb⟩) := by
  rw [ACDC.chunk2Shape]
  rw [if_pos (show 2 ≤ (ACDC.Shape2.mk (2 * m + 1) ch sa sb).n by simp; omega)]
  simp only [Option.some.injEq, Prod.mk.injEq, ACDC.Shape2.mk.injEq,
             eq_self_iff_true, true_and, and_true]
  all_goals omega

/-- With batch difference at least one and both batches at least 2, the
elementwise combination of the second half with a first-half-shaped mask
is ill-formed. -/
theorem aBinOp_mismatch (m ch sa sb : ℕ) (hm : 2 ≤ m) :
    ACDC.binOpShape ⟨m, ch, sa, sb⟩ ⟨m + 1, ch, sa, sb⟩ = none := by
  have hb : bcastDim m (m + 1) = none := by
    rw [bcastDim, if_neg (by omega), if_neg (by omega), if_neg (by omega)]
  simp [ACDC.binOpShape, hb, Option.bind]

/-- A batch-1 half broadcasts against a batch-2 mask. -/
theorem aBinOp_bcast (ch sa sb : ℕ) :
    ACDC.binOpShape ⟨1, ch, sa, sb⟩ ⟨2, ch, sa, sb⟩ = some ⟨2, ch, sa, sb⟩ := by
  simp [ACDC.binOpShape, bcastDim, Option.bind]

/-- U-Net strong mode on an even batch `2m`: all five predictions have
batch `m`. -/
theorem aStrong_even (inc ncls m a b : ℕ) (hm : 0 < m) (ha : 0 < a) (hb : 0 < b) :
    ACDC.unetForwardShape inc ncls ⟨2 * m, inc, 16 * a, 16 * b⟩ true "strong" =
      some [⟨m, ncls, 16 * a, 16 * b⟩, ⟨m, ncls, 16 * a, 16 * b⟩,
            ⟨m, ncls, 16 * a, 16 * b⟩, ⟨m, ncls, 16 * a, 16 * b⟩,
            ⟨m, ncls, 16 * a, 16 * b⟩] := by
  have henc := aEncoder_eval inc 16 32 64 128 256 (2 * m) a b ha hb
  have hdec := aDecoder_eval 16 32 64 128 256 ncls m a b ha hb
  simp [ACDC.unetForwardShape, henc, hdec, Option.bind, listMapM, aChunk_even _ _ _ _ hm, aBinOp_self]

/-- U-Net strong mode on batch 1: the chunk unpacking fails. -/
theorem aStrong_one (inc ncls a b : ℕ) (ha : 0 < a) (hb : 0 < b) :
    ACDC.unetForwardShape inc ncls ⟨1, inc, 16 * a, 16 * b⟩ true "strong" = none := by
  have henc := aEncoder_eval inc 16 32 64 128 256 1 a b ha hb
  have hch : ∀ ch sa sb : ℕ, ACDC.chunk2Shape ⟨1, ch, sa, sb⟩ = none := by
    intro ch sa sb
    simp [ACDC.chunk2Shape]
  simp [ACDC.unetForwardShape, henc, hch, Option.bind, listMapM]

/-- U-Net strong mode on an odd batch `2m + 1` with `m ≥ 2`: the
combination of the second half with the mask is ill-formed. -/
theorem aStrong_odd5 (inc ncls m a b : ℕ) (hm : 2 ≤ m) (ha : 0 < a) (hb : 0 < b) :
    ACDC.unetForwardShape inc ncls ⟨2 * m + 1, inc, 16 * a, 16 * b⟩ true "strong" =
      none := by
  have henc := aEncoder_eval inc 16 32 64 128 256 (2 * m + 1) a b ha hb
  simp [ACDC.unetForwardShape, henc, Option.bind, listMapM,
        aChunk_odd _ _ _ _ (by omega : 0 < m), aBinOp_self,
        aBinOp_mismatch _ _ _ _ hm]

/-- U-Net strong mode on batch 3: the batch-1 second half broadcasts, the
call succeeds, and the five predictions have batches `2, 1, 2, 2, 2`. -/
theorem aStrong_three (inc ncls a b : ℕ) (ha : 0 < a) (hb : 0 < b) :
    ACDC.unetForwardShape inc ncls ⟨3, inc, 16 * a, 16 * b⟩ true "strong" =
      some [⟨2, ncls, 16 * a, 16 * b⟩, ⟨1, ncls, 16 * a, 16 * b⟩,
            ⟨2, ncls, 16 * a, 16 * b⟩, ⟨2, ncls, 16 * a, 16 * b⟩,
            ⟨2, ncls, 16 * a, 16 * b⟩] := by
  have henc := aEncoder_eval inc 16 32 64 128 256 3 a b ha hb
  have hdec2 := aDecoder_eval 16 32 64 128 256 ncls 2 a b ha hb
  have hdec1 := aDecoder_eval 16 32 64 128 256 ncls 1 a b ha hb
  have hch : ∀ ch sa sb : ℕ, ACDC.chunk2Shape ⟨3, ch, sa, sb⟩ =
      some (⟨2, ch, sa, sb⟩, ⟨1, ch, sa, sb⟩) := by
    intro ch sa sb
    simp [ACDC.chunk2Shape]
  simp [ACDC.unetForwardShape, henc, hdec2, hdec1, hch, Option.bind,
        listMapM, aBinOp_self, aBinOp_bcast]

/-- 3d analogue of `aChunk_even`. -/
theorem vChunk_even (m ch sd sa sb : ℕ) (hm : 0 < m) :
    LA.chunk2Shape ⟨2 * m, ch, sd, sa, sb⟩ =
      some (⟨m, ch, sd, sa, sb⟩, ⟨m, ch, sd, sa, sb⟩) := by
  rw [LA.chunk2Shape]
  rw [if_pos (show 2 ≤ (LA.Shape3.mk (2 * m) ch sd sa sb).n by simp; omega)]
  simp only [Option.some.injEq, Prod.mk.injEq, LA.Shape3.mk.injEq,
             eq_self_iff_true, true_and, and_true]
  all_goals omega

/-- 3d analogue of `aChunk_odd`. -/
theorem vChunk_odd (m ch sd sa sb : ℕ) (hm : 0 < m) :
    LA.chunk2Shape ⟨2 * m + 1, ch, sd, sa, sb⟩ =
      some (⟨m + 1, ch, sd, sa, sb⟩, ⟨m, ch, sd, sa, sb⟩) := by
  rw [LA.chunk2Shape]
  rw [if_pos (show 2 ≤ (LA.Shape3.mk (2 * m + 1) ch sd sa sb).n by simp; omega)]
  simp only [Option.some.injEq, Prod.mk.injEq, LA.Shape3.mk.injEq,
             eq_self_iff_true, true_and, and_true]
  all_goals omega

/-- 3d analogue of `aBinOp_mismatch`. -/
theorem vBinOp_mismatch (m ch sd sa sb : ℕ) (hm : 2 ≤ m) :
    LA.binOpShape ⟨m, ch, sd, sa, sb⟩ ⟨m + 1, ch, sd, sa, sb⟩ = none := by
  have hb : bcastDim m (m + 1) = none := by
    rw [bcastDim, if_neg (by omega), if_neg (by omega), if_neg (by omega)]
  simp [LA.binOpShape, hb, Option.bind]

/-- 3d analogue of `aBinOp_bcast`. -/
theorem vBinOp_bcast (ch sd sa sb : ℕ) :
    LA.binOpShape ⟨1, ch, sd, sa, sb⟩ ⟨2, ch, sd, sa, sb⟩ =
      some ⟨2, ch, sd, sa, sb⟩ := by
  simp [LA.binOpShape, bcastDim, Option.bind]

/-- V-Net strong mode on an even batch `2m`: all five predictions have
batch `m`. -/
theorem vStrong_even (nch ncls nf m a b c : ℕ) (hm : 0 < m) (ha : 0 < a)
    (hb : 0 < b) (hc : 0 < c) :
    LA.vnetForwardShape nch ncls nf ⟨2 * m, nch, 16 * a, 16 * b, 16 * c⟩ true
        "strong" =
      some [⟨m, ncls, 16 * a, 16 * b, 16 * c⟩, ⟨m, ncls, 16 * a, 16 * b, 16 * c⟩,
            ⟨m, ncls, 16 * a, 16 * b, 16 * c⟩, ⟨m, ncls, 16 * a, 16 * b, 16 * c⟩,
            ⟨m, ncls, 16 * a, 16 * b, 16 * c⟩] := by
  have henc := vEncoder_eval nch nf (2 * m) a b c ha hb hc
  have hdec := vDecoder_eval nf ncls m a b c ha hb hc
  simp [LA.vnetForwardShape, henc, hdec, Option.bind, listMapM, vChunk_even _ _ _ _ _ hm, vBinOp_self]

/-- V-Net strong mode on batch 1: the chunk unpacking fails. -/
theorem vStrong_one (nch ncls nf a b c : ℕ) (ha : 0 < a) (hb : 0 < b) (hc : 0 < c) :
    LA.vnetForwardShape nch ncls nf ⟨1, nch, 16 * a, 16 * b, 16 * c⟩ true
        "strong" = none := by
  have henc := vEncoder_eval nch nf 1 a b c ha hb hc
  have hch : ∀ ch sd sa sb : ℕ, LA.chunk2Shape ⟨1, ch, sd, sa, sb⟩ = none := by
    intro ch sd sa sb
    simp [LA.chunk2Shape]
  simp [LA.vnetForwardShape, henc, hch, Option.bind, listMapM]

/-- V-Net strong mode on an odd batch `2m + 1` with `m ≥ 2`: the
combination of the second half with the mask is ill-formed. -/
theorem vStrong_odd5 (nch ncls nf m a b c : ℕ) (hm : 2 ≤ m) (ha : 0 < a)
    (hb : 0 < b) (hc : 0 < c) :
    LA.vnetForwardShape nch ncls nf ⟨2 * m + 1, nch, 16 * a, 16 * b, 16 * c⟩ true
        "strong" = none := by
  have henc := vEncoder_eval nch nf (2 * m + 1) a b c ha hb hc
  simp [LA.vnetForwardShape, henc, Option.bind, listMapM,
        vChunk_odd _ _ _ _ _ (by omega : 0 < m), vBinOp_self,
        vBinOp_mismatch _ _ _ _ _ hm]

/-- V-Net strong mode on batch 3: the batch-1 second half broadcasts, the
call succeeds, and the five predictions have batches `2, 1, 2, 2, 2`. -/
theorem vStrong_three (nch ncls nf a b c : ℕ) (ha : 0 < a) (hb : 0 < b)
    (hc : 0 < c) :
    LA.vnetForwardShape nch ncls nf ⟨3, nch, 16 * a, 16 * b, 16 * c⟩ true
        "strong" =
      some [⟨2, ncls, 16 * a, 16 * b, 16 * c⟩, ⟨1, ncls, 16 * a, 16 * b, 16 * c⟩,
            ⟨2, ncls, 16 * a, 16 * b, 16 * c⟩, ⟨2, ncls, 16 * a, 16 * b, 16 * c⟩,
            ⟨2, ncls, 16 * a, 16 * b, 16 * c⟩] := by
  have henc := vEncoder_eval nch nf 3 a b c ha hb hc
  have hdec2 := vDecoder_eval nf ncls 2 a b c ha hb hc
  have hdec1 := vDecoder_eval nf ncls 1 a b c ha hb hc
  have hch : ∀ ch sd sa sb : ℕ, LA.chunk2Shape ⟨3, ch, sd, sa, sb⟩ =
      some (⟨2, ch, sd, sa, sb⟩, ⟨1, ch, sd, sa, sb⟩) := by
    intro ch sd sa sb
    simp [LA.chunk2Shape]
  simp [LA.vnetForwardShape, henc, hdec2, hdec1, hch, Option.bind,
        listMapM, vBinOp_self, vBinOp_bcast]

/-- C9 (counterexample): the claim states that a strong-mode forward call
succeeds only when the batch size is even; at the odd batch size 3 the
call succeeds in both models, because torch broadcasting stretches the
batch-1 second half against the first-half-shaped mask. -/
theorem C9_cex :
    (ACDC.unetForwardShape 1 4 ⟨3, 1, 16, 16⟩ true "strong").isSome = true ∧
    3 % 2 = 1 ∧
    (LA.vnetForwardShape 1 2 16 ⟨3, 1, 16, 16, 16⟩ true "strong").isSome = true := by
  decide

/-- C9 (amended): on valid spatial sizes, a strong-mode forward call with
even batch `2m` succeeds and all five predictions have batch `m` (half
the input batch); with batch 1 it fails (the chunk unpacking); with odd
batch at least 5 it fails (the elementwise combination of the second half
with the first-half-shaped mask is ill-formed); and with batch 3 it
succeeds by broadcasting of the singleton second half, the five
predictions then having batches `2, 1, 2, 2, 2`. -/
theorem C9_strong_batch :
    (∀ inc ncls m a b : ℕ,
        ACDC.unetForwardShape inc ncls
            ⟨2 * (m + 1), inc, 16 * (a + 1), 16 * (b + 1)⟩ true "strong" =
          some [⟨m + 1, ncls, 16 * (a + 1), 16 * (b + 1)⟩,
                ⟨m + 1, ncls, 16 * (a + 1), 16 * (b + 1)⟩,
                ⟨m + 1, ncls, 16 * (a + 1), 16 * (b + 1)⟩,
                ⟨m + 1, ncls, 16 * (a + 1), 16 * (b + 1)⟩,
                ⟨m + 1, ncls, 16 * (a + 1), 16 * (b + 1)⟩] ∧
        ACDC.unetForwardShape inc ncls
            ⟨1, inc, 16 * (a + 1), 16 * (b + 1)⟩ true "strong" = none ∧
        ACDC.unetForwardShape inc ncls
            ⟨2 * (m + 2) + 1, inc, 16 * (a + 1), 16 * (b + 1)⟩ true "strong" =
          none ∧
        ACDC.unetForwardShape inc ncls
            ⟨3, inc, 16 * (a + 1), 16 * (b + 1)⟩ true "strong" =
          some [⟨2, ncls, 16 * (a + 1), 16 * (b + 1)⟩,
                ⟨1, ncls, 16 * (a + 1), 16 * (b + 1)⟩,
                ⟨2, ncls, 16 * (a + 1), 16 * (b + 1)⟩,
                ⟨2, ncls, 16 * (a + 1), 16 * (b + 1)⟩,
                ⟨2, ncls, 16 * (a + 1), 16 * (b + 1)⟩]) ∧
    (∀ nch ncls nf m a b c : ℕ,
        LA.vnetForwardShape nch ncls nf
            ⟨2 * (m + 1), nch, 16 * (a + 1), 16 * (b + 1), 16 * (c + 1)⟩ true
            "strong" =
          some [⟨m + 1, ncls, 16 * (a + 1), 16 * (b + 1), 16 * (c + 1)⟩,
                ⟨m + 1, ncls, 16 * (a + 1), 16 * (b + 1), 16 * (c + 1)⟩,
                ⟨m + 1, ncls, 16 * (a + 1), 16 * (b + 1), 16 * (c + 1)⟩,
                ⟨m + 1, ncls, 16 * (a + 1), 16 * (b + 1), 16 * (c + 1)⟩,
                ⟨m + 1, ncls, 16 * (a + 1), 16 * (b + 1), 16 * (c + 1)⟩] ∧
        LA.vnetForwardShape nch ncls nf
            ⟨1, nch, 16 * (a + 1), 16 * (b + 1), 16 * (c + 1)⟩ true "strong" =
          none ∧
        LA.vnetForwardShape nch ncls nf
            ⟨2 * (m + 2) + 1, nch, 16 * (a + 1), 16 * (b + 1), 16 * (c + 1)⟩ true
            "strong" = none ∧
        LA.vnetForwardShape nch ncls nf
            ⟨3, nch, 16 * (a + 1), 16 * (b + 1), 16 * (c + 1)⟩ true "strong" =
          some [⟨2, ncls, 16 * (a + 1), 16 * (b + 1), 16 * (c + 1)⟩,
                ⟨1, ncls, 16 * (a + 1), 16 * (b + 1), 16 * (c + 1)⟩,
                ⟨2, ncls, 16 * (a + 1), 16 * (b + 1), 16 * (c + 1)⟩,
                ⟨2, ncls, 16 * (a + 1), 16 * (b + 1), 16 * (c + 1)⟩,
                ⟨2, ncls, 16 * (a + 1), 16 * (b + 1), 16 * (c + 1)⟩]) := by
  constructor
  · intro inc ncls m a b
    exact ⟨aStrong_even inc ncls (m + 1) (a + 1) (b + 1) (Nat.succ_pos m)
             (Nat.succ_pos a) (Nat.succ_pos b),
           aStrong_one inc ncls (a + 1) (b + 1) (Nat.succ_pos a) (Nat.succ_pos b),
           aStrong_odd5 inc ncls (m + 2) (a + 1) (b + 1) (by omega)
             (Nat.succ_pos a) (Nat.succ_pos b),
           aStrong_three inc ncls (a + 1) (b + 1) (Nat.succ_pos a)
             (Nat.succ_pos b)⟩
  · intro nch ncls nf m a b c
    exact ⟨vStrong_even nch ncls nf (m + 1) (a + 1) (b + 1) (c + 1)
             (Nat.succ_pos m) (Nat.succ_pos a) (Nat.succ_pos b) (Nat.succ_pos c),
           vStrong_one nch ncls nf (a + 1) (b + 1) (c + 1) (Nat.succ_pos a)
             (Nat.succ_pos b) (Nat.succ_pos c),
           vStrong_odd5 nch ncls nf (m + 2) (a + 1) (b + 1) (c + 1) (by omega)
             (Nat.succ_pos a) (Nat.succ_pos b) (Nat.succ_pos c),
           vStrong_three nch ncls nf (a + 1) (b + 1) (c + 1) (Nat.succ_pos a)
             (Nat.succ_pos b) (Nat.succ_pos c)⟩

/-- C1: the claim states that `VNet.forward` leaves the configuration
state unchanged for every flag combination; the code contradicts it (and
the spec sentence it comes from, which its own save/restore of
`has_dropout` also evidences as the intent): with `turnoff_drop=True` and
`need_fp=True` the early returns of the `normal` and `strong` branches skip
the restore, so a model constructed with `has_dropout=True` is left with
`has_dropout=False` after the call.  This theorem evaluates the embedded
forward at the failing input. -/
theorem C1_has_dropout_not_restored :
    exVNet.has_dropout = true ∧
    ((exVNet.forward unitOps () true true "normal").2.1).has_dropout = false :=
  ⟨rfl, rfl⟩

/-- C2: with `need_fp=True` each forward pass calls the encoder exactly
once (one `enc` event in every branch), and in the strong mode the five
returned predictions are exactly the five decoder applications to the
split/masked/recombined versions of that single encoder output, with five
`dec` events and no second `enc` event. -/
theorem C2_single_encoder_pass :
    (∀ (T : Type) (m : ACDC.UNet T) (g : TorchOps T) (x : T) (t : String),
        (m.forward g x true t).2.count MEvent.enc = 1) ∧
    (∀ (T : Type) (m : ACDC.UNet T) (g : TorchOps T) (x : T),
        (m.forward g x true "strong").1 = strongPreds m.decoder g (m.encoder x) ∧
        (m.forward g x true "strong").2.count MEvent.dec = 5) ∧
    (∀ (T : Type) (inst : Inhabited T) (m : LA.VNet T) (g : TorchOps T)
        (input : T) (td : Bool) (t : String),
        (m.forward g input td true t).2.2.count MEvent.enc = 1) ∧
    (∀ (T : Type) (inst : Inhabited T) (m : LA.VNet T) (g : TorchOps T)
        (input : T) (td : Bool),
        (m.forward g input td true "strong").1 =
          strongPreds
            (fun fs =>
              (if td then { m with has_dropout := false } else m).decoder g fs false)
            g ((if td then { m with has_dropout := false } else m).encoder input) ∧
        (m.forward g input td true "strong").2.2.count MEvent.dec = 5) := by
  refine ⟨fun T m g x t => ?_, fun T m g x => ?_,
          fun T inst m g input td t => ?_, fun T inst m g input td => ?_⟩
  · by_cases h1 : t = "normal"
    · simp [ACDC.UNet.forward, h1]
    · by_cases h2 : t = "strong" <;> simp [ACDC.UNet.forward, h1, h2]
  · refine ⟨?_, ?_⟩ <;>
      simp [ACDC.UNet.forward]
  · by_cases h1 : t = "normal"
    · simp [LA.VNet.forward, h1]
    · by_cases h2 : t = "strong" <;> simp [LA.VNet.forward, h1, h2]
  · refine ⟨?_, ?_⟩ <;>
      simp [LA.VNet.forward]

/-- C4 (counterexample): in the strong mode the weak corruption is applied
to `f1` and the strong corruption to `f2`, where `f1, f2 = feats.chunk(2)`
are the two batch halves — not two copies of the same feature map.  At the
concrete batch `[0, 1]` the tensor fed to the weak corruption (`[0]`)
differs from the tensor fed to the strong corruption (`[1]`) at every
pyramid level. -/
theorem C4_cex :
    (strongSplit listOps (exUNet.encoder [0, 1])).map Prod.fst ≠
      (strongSplit listOps (exUNet.encoder [0, 1])).map Prod.snd := by decide

/-- C4 (amended): in the strong mode each pyramid level is chunked into
its two batch halves `(f1, f2)` (in general distinct feature content); the
weak corruption is `f1 * mask` with the first half, the strong corruption
is `f2 * (1 - mask)` with the complementary mask on the second half, and
the complete feature is their sum — the `j`-th loop iteration using mask
draw `j` and the `j`-th chunk pair. -/
theorem C4_halves_complementary :
    (∀ (T : Type) (g : TorchOps T) (features : List T),
        strongSplit g features = features.map g.chunk2) ∧
    (∀ (T : Type) (g : TorchOps T) (i : ℕ) (f1 f2 : T),
        strongStep g i f1 f2 =
          (g.mul f1 (g.randMask i f1),
           g.mul f2 (g.oneMinus (g.randMask i f1)),
           g.add (g.mul f1 (g.randMask i f1))
             (g.mul f2 (g.oneMinus (g.randMask i f1))))) ∧
    (∀ (T : Type) (g : TorchOps T) (i j : ℕ) (d : T × T) (pairs : List (T × T)),
        j < pairs.length →
        (strongLoop g i pairs).getD j (strongStep g 0 d.1 d.2) =
          strongStep g (i + j) (pairs.getD j d).1 (pairs.getD j d).2) := by
  refine ⟨fun T g features => rfl, fun T g i f1 f2 => rfl, ?_⟩
  intro T g i j d pairs
  induction pairs generalizing i j with
  | nil => intro h; simp at h
  | cons p rest ih =>
    intro h
    cases j with
    | zero => simp [strongLoop]
    | succ k =>
      have e : i + (k + 1) = (i + 1) + k := by omega
      simp only [strongLoop, List.getD_cons_succ, e]
      exact ih (i + 1) k (by simpa using h)

/-- C4 (witness): the amended statement instantiated on the concrete
chunked batch `[0, 1]`. -/
theorem C4_witness :
    (strongLoop listOps 0 [([(0 : ℤ)], [(1 : ℤ)])]).getD 0
        (strongStep listOps 0 ([] : List ℤ) []) =
      strongStep listOps (0 + 0) [(0 : ℤ)] [(1 : ℤ)] :=
  C4_halves_complementary.2.2 (List ℤ) listOps 0 0 ([], []) [([0], [1])] (by decide)

/-- C5 (counterexample): the claimed characterisation of the assertion
behaviour is refuted at concrete inputs: a `ConvBlock` with `n_stages=0`
and an invalid normalization name constructs without any assertion (the
loop body never runs), and `ResidualConvBlock` does perform input
validation of its own, so the Encoder/Decoder/ConvBlock assertions are not
the only ones. -/
theorem C5_cex :
    LA.convBlockInitOk 0 "foo" = true ∧ LA.validNorm "foo" = false ∧
    LA.residualConvBlockInitOk 1 "foo" = false := by decide

/-- C5 (amended): `Encoder`/`Decoder` construction fails by assertion iff
the feature-channel list does not have length 5; a V-Net `ConvBlock` with
at least one stage (as all of `VNet.__init__`'s are) fails by assertion iff
the normalization name is not one of none/batchnorm/groupnorm/instancenorm;
and the sibling block classes (`ResidualConvBlock` with at least one stage,
`DownsamplingConvBlock`, `UpsamplingDeconvBlock`, `Upsampling`) carry the
same normalization assertion. -/
theorem C5_init_checks :
    (∀ ft : List ℕ, ACDC.encoderInitOk ft = false ↔ ft.length ≠ 5) ∧
    (∀ ft : List ℕ, ACDC.decoderInitOk ft = false ↔ ft.length ≠ 5) ∧
    (∀ (n : ℕ) (norm : String),
        LA.convBlockInitOk (n + 1) norm = false ↔ LA.validNorm norm = false) ∧
    (∀ (n : ℕ) (norm : String),
        LA.residualConvBlockInitOk (n + 1) norm = false ↔ LA.validNorm norm = false) ∧
    (∀ norm : String,
        LA.downsamplingConvBlockInitOk norm = false ↔ LA.validNorm norm = false) ∧
    (∀ norm : String,
        LA.upsamplingDeconvBlockInitOk norm = false ↔ LA.validNorm norm = false) ∧
    (∀ norm : String, LA.upsamplingInitOk norm = false ↔ LA.validNorm norm = false) := by
  refine ⟨fun ft => ?_, fun ft => ?_, fun n norm => ?_, fun n norm => ?_,
          fun norm => Iff.rfl, fun norm => Iff.rfl, fun norm => Iff.rfl⟩
  · simp [ACDC.encoderInitOk]
  · simp [ACDC.decoderInitOk]
  · cases hv : LA.validNorm norm
    · simp [LA.convBlockInitOk, hv, List.all_eq_true]
      exact ⟨0, Nat.succ_pos n⟩
    · simp [LA.convBlockInitOk, hv, List.all_eq_true]
  · cases hv : LA.validNorm norm
    · simp [LA.residualConvBlockInitOk, hv, List.all_eq_true]
      exact ⟨0, Nat.succ_pos n⟩
    · simp [LA.residualConvBlockInitOk, hv, List.all_eq_true]

/-- C6 (counterexample): the claim asserts the two dropout operators have
strictly different strengths in terms of the module parameter `p`; at the
constructible parameter `p = 0` the weak and strong probabilities coincide
in both models (U-Net: `0·0.5 = 0·1.5`; V-Net: `0.5 - 0 = 0.5 + 0`). -/
theorem C6_cex :
    (ACDC.PertDropout.mk 0).weakP = (ACDC.PertDropout.mk 0).strongP ∧
    (LA.PertDropout.mk 0).weakP = (LA.PertDropout.mk 0).strongP := by
  constructor <;>
    simp [ACDC.PertDropout.weakP, ACDC.PertDropout.strongP,
          LA.PertDropout.weakP, LA.PertDropout.strongP]

/-- C6 (amended): `PertDropout` holds exactly the weak and the strong
dropout, in this order (U-Net probabilities `p*0.5` and `p*1.5`, V-Net
`0.5 - p/2` and `0.5 + p/2`), the strengths differing iff `p ≠ 0` (both
models instantiate `p = 0.5`); its length is 2; and `forward` on a list
`x` of `n` feature maps returns exactly the two lists
`[weak(x[0]), ..., weak(x[n-1])]` and `[strong(x[0]), ..., strong(x[n-1])]`,
each of length `n`. -/
theorem C6_pert_structure :
    (∀ p : ℚ,
        (ACDC.PertDropout.mk p).dropouts =
          [(ACDC.PertDropout.mk p).weakP, (ACDC.PertDropout.mk p).strongP] ∧
        (ACDC.PertDropout.mk p).len = 2 ∧
        ((ACDC.PertDropout.mk p).weakP ≠ (ACDC.PertDropout.mk p).strongP ↔ p ≠ 0)) ∧
    (∀ p : ℚ,
        (LA.PertDropout.mk p).dropouts =
          [(LA.PertDropout.mk p).weakP, (LA.PertDropout.mk p).strongP] ∧
        (LA.PertDropout.mk p).len = 2 ∧
        ((LA.PertDropout.mk p).weakP ≠ (LA.PertDropout.mk p).strongP ↔ p ≠ 0)) ∧
    (∀ (T : Type) (app : ℚ → T → T) (x : List T) (m : ACDC.PertDropout),
        m.forward app x = [x.map (app m.weakP), x.map (app m.strongP)] ∧
        (m.forward app x).map List.length = [x.length, x.length]) ∧
    (∀ (T : Type) (app : ℚ → T → T) (x : List T) (m : LA.PertDropout),
        m.forward app x = [x.map (app m.weakP), x.map (app m.strongP)] ∧
        (m.forward app x).map List.length = [x.length, x.length]) := by
  refine ⟨fun p => ⟨rfl, rfl, ?_⟩, fun p => ⟨rfl, rfl, ?_⟩,
          fun T app x m =>
            ⟨rfl, by simp [ACDC.PertDropout.forward, ACDC.PertDropout.dropouts]⟩,
          fun T app x m =>
            ⟨rfl, by simp [LA.PertDropout.forward, LA.PertDropout.dropouts]⟩⟩
  · constructor
    · intro h hp
      exact h (by subst hp; simp [ACDC.PertDropout.weakP, ACDC.PertDropout.strongP])
    · intro hp h
      apply hp
      have h2 := h
      simp only [ACDC.PertDropout.weakP, ACDC.PertDropout.strongP] at h2
      linarith
  · constructor
    · intro h hp
      exact h (by subst hp; simp [LA.PertDropout.weakP, LA.PertDropout.strongP])
    · intro hp h
      apply hp
      have h2 := h
      simp only [LA.PertDropout.weakP, LA.PertDropout.strongP] at h2
      linarith

/-- C10: the `pert` module instantiated in `__init__` is dead state for
the forward pass: replacing it by any other `PertDropout` leaves the
outputs and the call traces of `forward` unchanged for every input, every
flag combination and every behaviour of the tensor library (in particular
every random draw), in both models. -/
theorem C10_forward_ignores_pert :
    (∀ (T : Type) (m : ACDC.UNet T) (q : ACDC.PertDropout) (g : TorchOps T)
        (x : T) (fp : Bool) (t : String),
        ACDC.UNet.forward { m with pert := q } g x fp t = m.forward g x fp t) ∧
    (∀ (T : Type) (inst : Inhabited T) (m : LA.VNet T) (q : LA.PertDropout)
        (g : TorchOps T) (input : T) (td fp : Bool) (t : String),
        (LA.VNet.forward { m with pert := q } g input td fp t).1 =
          (m.forward g input td fp t).1 ∧
        (LA.VNet.forward { m with pert := q } g input td fp t).2.2 =
          (m.forward g input td fp t).2.2 ∧
        ((LA.VNet.forward { m with pert := q } g input td fp t).2.1).has_dropout =
          ((m.forward g input td fp t).2.1).has_dropout) := by
  constructor
  · intro T m q g x fp t
    rfl
  · intro T inst m q g input td fp t
    cases m
    cases td <;> cases fp <;>
      by_cases h1 : t = "normal" <;> by_cases h2 : t = "strong" <;>
        refine ⟨?_, ?_, ?_⟩ <;>
          simp [LA.VNet.forward, LA.VNet.encoder, LA.VNet.decoder, h1, h2]

end CompNet
